import Mathlib

/-! The "list all orders" use case.

A shallow embedding of `internal/usecase/list_orders.go` (package `usecase`):
the struct `ListOrdersUseCase`, its constructor `GetOrdersUseCase` and the method
`Execute`.

Go code is embedded by explicit state passing.  A call takes the world before the call
and yields an `Outcome`: either a normal return (a value and the world after), or a
run-time panic (and the world at the moment of the panic).

* the world holds the heap cells of the allocated `ListOrdersUseCase` structs and the
  state `σ` of whatever backs the repository;
* a `*ListOrdersUseCase` is `nil` or the address of a heap cell;
* a slice is `nil` or a backing sequence, an `error` is `nil` or an error value;
* an interface value is `nil` or a dynamic value; a method call on it is dispatched
  through the method set of the dynamic values.  The code of a method acts on the whole
  world: a repository may hold a pointer to a use case and write its exported field.
-/

namespace Go

/-- A run-time panic of a Go program. -/
inductive Panic where
  /-- The panic "invalid memory address or nil pointer dereference". -/
  | nilDereference
  /-- A panic raised by the code of a collaborator. -/
  | raised (msg : String)
deriving DecidableEq, Repr

/-- How a call ends: it returns `val` in state `st`, or it panics in state `st`. -/
inductive Outcome (σ α : Type) where
  | ret (val : α) (st : σ)
  | panic (p : Panic) (st : σ)

/-- The state in which a call ended, whether it returned or panicked. -/
def Outcome.state {σ α : Type} : Outcome σ α → σ
  | .ret _ st => st
  | .panic _ st => st

/-- The returned value of a call, `none` when the call panicked. -/
def Outcome.value? {σ α : Type} : Outcome σ α → Option α
  | .ret val _ => some val
  | .panic _ _ => none

/-- A slice `[]T`: `none` is the `nil` slice, `some xs` a non-nil slice with elements `xs`
(`some []` is the empty, non-nil slice). -/
abbrev Slice (α : Type) := Option (List α)

/-- A value of the interface type `error`: `none` is `nil`. -/
abbrev GoError (ε : Type) := Option ε

/-- A pointer: `none` is `nil`, `some a` the address of heap cell `a`. -/
abbrev Ptr := Option Nat

end Go

open Go

namespace Entity

/-- A value of interface type `entity.OrderRepositoryInterface`: `none` is the `nil`
interface value, `some v` holds the dynamic value `v` (a value of some concrete
repository type); `ι` is the type of the dynamic values. -/
abbrev OrderRepositoryInterface (ι : Type) := Option ι

/-- Modelled from the spec: the interface `entity.OrderRepositoryInterface` is declared in
package `entity`, which is not among the sources.  The spec gives it the single operation
`GetOrders() → (sequence of Order, error)`.  This structure is the method set of the
dynamic values `ι`: `GetOrders v` is the code of the method for the dynamic value `v`.
It runs on the whole program state `W`; `Order` stands for the element type
`*entity.Order`, `ε` for the error values. -/
structure OrderRepositoryMethods (ι W Order ε : Type) where
  GetOrders : ι → W → Outcome W (Slice Order × GoError ε)

/-- The method call `i.GetOrders()` on an interface value: on the `nil` interface the call
panics before any repository code runs, otherwise the method of the dynamic value runs. -/
def OrderRepositoryInterface.GetOrders {ι W Order ε : Type}
    (M : OrderRepositoryMethods ι W Order ε) (i : OrderRepositoryInterface ι) (w : W) :
    Outcome W (Slice Order × GoError ε) :=
  match i with
  | none => .panic .nilDereference w
  | some v => M.GetOrders v w

end Entity

namespace Usecase

open Entity

/-- The struct of `list_orders.go`:
`type ListOrdersUseCase struct { OrderRepository entity.OrderRepositoryInterface }`. -/
structure ListOrdersUseCase (ι : Type) where
  OrderRepository : OrderRepositoryInterface ι
deriving DecidableEq

/-- The world a call runs in: the heap cells holding `ListOrdersUseCase` structs (the
address of a cell is its index) and the state of the repository's backing store. -/
structure World (ι σ : Type) where
  heap : List (ListOrdersUseCase ι)
  repo : σ
deriving DecidableEq

/-- Dereference of a `*ListOrdersUseCase`: `none` for `nil` (and for an address that was
never allocated, which no Go program can hold). -/
def World.load {ι σ : Type} (w : World ι σ) (p : Ptr) : Option (ListOrdersUseCase ι) :=
  match p with
  | none => none
  | some a => w.heap[a]?

/-- The constructor of `list_orders.go`:
`return &ListOrdersUseCase{ OrderRepository: OrderRepository }`.
A fresh heap cell is allocated, the argument is stored in it, its address is returned. -/
def GetOrdersUseCase {ι σ : Type} (OrderRepository : OrderRepositoryInterface ι)
    (w : World ι σ) : Outcome (World ι σ) Ptr :=
  .ret (some w.heap.length) ⟨w.heap ++ [⟨OrderRepository⟩], w.repo⟩

/-- The method `func (l *ListOrdersUseCase) Execute() ([]*entity.Order, error)`:
```
orders, err := l.OrderRepository.GetOrders()
if err != nil {
    return nil, err
}
return orders, nil
```
Reading the field through a `nil` receiver panics.  The world after the call is the world
the repository's method left: `Execute` has no write of its own. -/
def ListOrdersUseCase.Execute {ι σ Order ε : Type}
    (M : OrderRepositoryMethods ι (World ι σ) Order ε) (l : Ptr) (w : World ι σ) :
    Outcome (World ι σ) (Slice Order × GoError ε) :=
  match w.load l with
  | none => .panic .nilDereference w
  | some u =>
    match OrderRepositoryInterface.GetOrders M u.OrderRepository w with
    | .panic p w1 => .panic p w1
    | .ret (orders, err) w1 =>
      if err.isSome then
        .ret (none, err) w1
      else
        .ret (orders, none) w1

/-! ## Test doubles used to instantiate the theorems -/

/-- An order as the scenarios of the specification name it: by its id. -/
structure SampleOrder where
  id : String
deriving DecidableEq, Repr

/-- A repository holding its collection in memory: `GetOrders` returns the stored
collection and no error. -/
def memoryRepository (Order ε : Type) :
    OrderRepositoryMethods Unit (World Unit (Slice Order)) Order ε :=
  ⟨fun _ w => .ret (w.repo, none) w⟩

/-- A repository whose retrieval always fails with the error `e`, returning the orders `x`
alongside it. -/
def failingRepository {σ Order ε : Type} (x : Slice Order) (e : ε) :
    OrderRepositoryMethods Unit (World Unit σ) Order ε :=
  ⟨fun _ w => .ret (x, some e) w⟩

/-- A repository that replays a script: each `GetOrders` returns the next scripted result;
with the script exhausted it returns a `nil` slice and no error. -/
def scriptedRepository (Order ε : Type) :
    OrderRepositoryMethods Unit (World Unit (List (Slice Order × GoError ε))) Order ε :=
  ⟨fun _ w =>
    match w.repo with
    | [] => .ret (none, none) w
    | r :: rest => .ret r ⟨w.heap, rest⟩⟩

/-- A repository with a call counter: it behaves as the repository of `M` and counts the
invocations of `GetOrders` in the second component of the repository state. -/
def countingRepository {ι σ Order ε : Type} (M : OrderRepositoryMethods ι (World ι σ) Order ε) :
    OrderRepositoryMethods ι (World ι (σ × Nat)) Order ε :=
  ⟨fun v w =>
    match M.GetOrders v ⟨w.heap, w.repo.1⟩ with
    | .ret x w1 => .ret x ⟨w1.heap, (w1.repo, w.repo.2 + 1)⟩
    | .panic p w1 => .panic p ⟨w1.heap, (w1.repo, w.repo.2 + 1)⟩⟩

/-- The dynamic value of a repository that keeps a pointer to a use case, as in
`type aliasing struct { usecase *usecase.ListOrdersUseCase }`. -/
structure AliasingRepository where
  usecase : Ptr
deriving DecidableEq, Repr

/-- The write `p.OrderRepository = nil` done by repository code that holds `p` and has
checked it against `nil`. -/
def clearOrderRepository {ι σ : Type} (w : World ι σ) (p : Ptr) : World ι σ :=
  match p with
  | none => w
  | some a => ⟨w.heap.set a ⟨none⟩, w.repo⟩

/-- A scripted repository that also holds a pointer to a use case: each `GetOrders`
returns the next scripted result and sets the exported field `OrderRepository` of that
use case to `nil`. -/
def aliasingRepository (Order ε : Type) :
    OrderRepositoryMethods AliasingRepository
      (World AliasingRepository (List (Slice Order × GoError ε))) Order ε :=
  ⟨fun v w =>
    match w.repo with
    | [] => .ret (none, none) (clearOrderRepository w v.usecase)
    | r :: rest => .ret r (clearOrderRepository ⟨w.heap, rest⟩ v.usecase)⟩

/-! ## Properties of `Execute` and of the constructor -/

/-- C1. Success pass-through: when the repository's `GetOrders` returns `(S, nil)`,
`Execute` returns `(S, nil)` with the very same slice `S` (nil, empty or not), and the
world after the call is the one the repository left. -/
theorem execute_success_passthrough {ι σ Order ε : Type}
    (M : OrderRepositoryMethods ι (World ι σ) Order ε) (l : Ptr) (w : World ι σ)
    (u : ListOrdersUseCase ι) (v : ι) (S : Slice Order) (w1 : World ι σ)
    (hl : w.load l = some u) (hr : u.OrderRepository = some v)
    (hget : M.GetOrders v w = .ret (S, none) w1) :
    ListOrdersUseCase.Execute M l w = .ret (S, none) w1 := by
  simp [ListOrdersUseCase.Execute, OrderRepositoryInterface.GetOrders, hl, hr, hget]

/-- Scenario A and scenario B of C1: a repository holding `[{id:"1"}, {id:"2"}]` yields
exactly that sequence, a repository holding an empty collection yields the empty sequence,
and a repository returning the nil slice yields the nil slice. -/
theorem execute_success_passthrough_witness :
    (ListOrdersUseCase.Execute (memoryRepository SampleOrder String) (some 0)
        ⟨[⟨some ()⟩], some [⟨"1"⟩, ⟨"2"⟩]⟩
      = .ret (some [⟨"1"⟩, ⟨"2"⟩], none) ⟨[⟨some ()⟩], some [⟨"1"⟩, ⟨"2"⟩]⟩)
    ∧ (ListOrdersUseCase.Execute (memoryRepository SampleOrder String) (some 0)
        ⟨[⟨some ()⟩], some []⟩
      = .ret (some [], none) ⟨[⟨some ()⟩], some []⟩)
    ∧ (ListOrdersUseCase.Execute (memoryRepository SampleOrder String) (some 0)
        ⟨[⟨some ()⟩], none⟩
      = .ret (none, none) ⟨[⟨some ()⟩], none⟩) :=
  ⟨execute_success_passthrough (memoryRepository SampleOrder String) (some 0)
      ⟨[⟨some ()⟩], some [⟨"1"⟩, ⟨"2"⟩]⟩ ⟨some ()⟩ () (some [⟨"1"⟩, ⟨"2"⟩])
      ⟨[⟨some ()⟩], some [⟨"1"⟩, ⟨"2"⟩]⟩ rfl rfl rfl,
   execute_success_passthrough (memoryRepository SampleOrder String) (some 0)
      ⟨[⟨some ()⟩], some []⟩ ⟨some ()⟩ () (some []) ⟨[⟨some ()⟩], some []⟩ rfl rfl rfl,
   execute_success_passthrough (memoryRepository SampleOrder String) (some 0)
      ⟨[⟨some ()⟩], none⟩ ⟨some ()⟩ () none ⟨[⟨some ()⟩], none⟩ rfl rfl rfl⟩

/-- C2. Error propagation: when the repository's `GetOrders` returns `(X, E)` with `E` a
non-nil error, `Execute` returns the nil slice and the same error value `E`, whatever `X`
is. -/
theorem execute_error_propagation {ι σ Order ε : Type}
    (M : OrderRepositoryMethods ι (World ι σ) Order ε) (l : Ptr) (w : World ι σ)
    (u : ListOrdersUseCase ι) (v : ι) (X : Slice Order) (E : ε) (w1 : World ι σ)
    (hl : w.load l = some u) (hr : u.OrderRepository = some v)
    (hget : M.GetOrders v w = .ret (X, some E) w1) :
    ListOrdersUseCase.Execute M l w = .ret (none, some E) w1 := by
  simp [ListOrdersUseCase.Execute, OrderRepositoryInterface.GetOrders, hl, hr, hget]

/-- Scenario C of C2: a repository failing with a connectivity error makes `Execute`
return no orders and that same error. -/
theorem execute_error_propagation_witness :
    ListOrdersUseCase.Execute
        (failingRepository (none : Slice SampleOrder) "connection refused") (some 0)
        (⟨[⟨some ()⟩], ()⟩ : World Unit Unit)
      = .ret (none, some "connection refused") ⟨[⟨some ()⟩], ()⟩ :=
  execute_error_propagation
    (failingRepository (none : Slice SampleOrder) "connection refused") (some 0)
    (⟨[⟨some ()⟩], ()⟩ : World Unit Unit) ⟨some ()⟩ () none "connection refused"
    ⟨[⟨some ()⟩], ()⟩ rfl rfl rfl

/-- C3. Exactly one repository call: for a repository that counts its `GetOrders`
invocations (each invocation, however it ends, raises `calls` by one), a call of `Execute`
raises the count by exactly one, and the world it leaves is the world after a single
`GetOrders` on the world before. -/
theorem execute_calls_repository_once {ι σ Order ε : Type}
    (M : OrderRepositoryMethods ι (World ι σ) Order ε) (l : Ptr) (w : World ι σ)
    (u : ListOrdersUseCase ι) (v : ι) (calls : World ι σ → Nat)
    (hl : w.load l = some u) (hr : u.OrderRepository = some v)
    (hcount : ∀ w0, calls (M.GetOrders v w0).state = calls w0 + 1) :
    calls (ListOrdersUseCase.Execute M l w).state = calls w + 1
    ∧ (ListOrdersUseCase.Execute M l w).state = (M.GetOrders v w).state := by
  have hstate : (ListOrdersUseCase.Execute M l w).state = (M.GetOrders v w).state := by
    simp only [ListOrdersUseCase.Execute, OrderRepositoryInterface.GetOrders, hl, hr]
    cases hget : M.GetOrders v w with
    | panic p w1 => rfl
    | ret x w1 =>
      obtain ⟨orders, err⟩ := x
      cases err <;> rfl
  exact ⟨by rw [hstate, hcount], hstate⟩

/-- The counting repository around a repository that succeeds and around one that fails:
in both cases one `Execute` moves the counter from 7 to 8. -/
theorem execute_calls_repository_once_witness :
    ((ListOrdersUseCase.Execute (countingRepository (memoryRepository SampleOrder String))
        (some 0) ⟨[⟨some ()⟩], (some [⟨"1"⟩], 7)⟩).state.repo.2 = 7 + 1)
    ∧ ((ListOrdersUseCase.Execute
        (countingRepository
          (failingRepository (none : Slice SampleOrder) "connection refused"))
        (some 0) (⟨[⟨some ()⟩], ((), 7)⟩ : World Unit (Unit × Nat))).state.repo.2 = 7 + 1) :=
  ⟨(execute_calls_repository_once (countingRepository (memoryRepository SampleOrder String))
      (some 0) ⟨[⟨some ()⟩], (some [⟨"1"⟩], 7)⟩ ⟨some ()⟩ () (fun w => w.repo.2)
      rfl rfl (fun _ => rfl)).1,
   (execute_calls_repository_once
      (countingRepository
        (failingRepository (none : Slice SampleOrder) "connection refused"))
      (some 0) (⟨[⟨some ()⟩], ((), 7)⟩ : World Unit (Unit × Nat)) ⟨some ()⟩ ()
      (fun w => w.repo.2) rfl rfl (fun _ => rfl)).1⟩

/-- C4. The constructor stores its argument without validation: for every interface value
`i`, the nil one included, `GetOrdersUseCase i` returns normally a non-nil pointer to a
fresh cell whose struct has `OrderRepository = i`; the cells allocated before are kept, and
the repository state is untouched (no operation of `i` has run). -/
theorem getOrdersUseCase_stores_argument {ι σ : Type}
    (i : OrderRepositoryInterface ι) (w : World ι σ) :
    ∃ (a : Nat) (w1 : World ι σ),
      GetOrdersUseCase i w = .ret (some a) w1
      ∧ w.load (some a) = none
      ∧ w1.load (some a) = some ⟨i⟩
      ∧ (w1.load (some a)).map (fun u => u.OrderRepository) = some i
      ∧ w1.repo = w.repo
      ∧ ∀ (p : Ptr) (u : ListOrdersUseCase ι), w.load p = some u → w1.load p = some u := by
  refine ⟨w.heap.length, ⟨w.heap ++ [⟨i⟩], w.repo⟩, by rfl, ?_, ?_, ?_, rfl, ?_⟩
  · simp [World.load]
  · simp [World.load]
  · simp [World.load]
  · intro p u hp
    cases p with
    | none => simp [World.load] at hp
    | some a =>
      simp only [World.load] at hp ⊢
      have hlt : a < w.heap.length := by
        by_contra hge
        rw [List.getElem?_eq_none (Nat.le_of_not_lt hge)] at hp
        exact Option.noConfusion hp
      rw [List.getElem?_append_left hlt]
      exact hp

/-- C5 as stated fails: the aliasing repository returns `[{id:"1"}]` and then
`[{id:"2"}]` on two successive `GetOrders` calls, the first `Execute` returns
`[{id:"1"}]`, but the second `Execute` on the same use case panics with a nil dereference
and returns nothing, the first `GetOrders` having set the use case's field to nil. -/
theorem execute_no_caching_counterexample :
    (aliasingRepository SampleOrder String).GetOrders ⟨some 0⟩
        ⟨[⟨some ⟨some 0⟩⟩], [(some [⟨"1"⟩], none), (some [⟨"2"⟩], none)]⟩
      = .ret (some [⟨"1"⟩], none) ⟨[⟨none⟩], [(some [⟨"2"⟩], none)]⟩
    ∧ (aliasingRepository SampleOrder String).GetOrders ⟨some 0⟩
        ⟨[⟨none⟩], [(some [⟨"2"⟩], none)]⟩
      = .ret (some [⟨"2"⟩], none) ⟨[⟨none⟩], []⟩
    ∧ ListOrdersUseCase.Execute (aliasingRepository SampleOrder String) (some 0)
        ⟨[⟨some ⟨some 0⟩⟩], [(some [⟨"1"⟩], none), (some [⟨"2"⟩], none)]⟩
      = .ret (some [⟨"1"⟩], none) ⟨[⟨none⟩], [(some [⟨"2"⟩], none)]⟩
    ∧ ListOrdersUseCase.Execute (aliasingRepository SampleOrder String) (some 0)
        (ListOrdersUseCase.Execute (aliasingRepository SampleOrder String) (some 0)
          ⟨[⟨some ⟨some 0⟩⟩], [(some [⟨"1"⟩], none), (some [⟨"2"⟩], none)]⟩).state
      = .panic .nilDereference ⟨[⟨none⟩], [(some [⟨"2"⟩], none)]⟩
    ∧ (ListOrdersUseCase.Execute (aliasingRepository SampleOrder String) (some 0)
        (ListOrdersUseCase.Execute (aliasingRepository SampleOrder String) (some 0)
          ⟨[⟨some ⟨some 0⟩⟩], [(some [⟨"1"⟩], none), (some [⟨"2"⟩], none)]⟩).state).value?
      ≠ some (some [⟨"2"⟩], none) :=
  ⟨rfl, rfl, rfl, rfl, fun h => Option.noConfusion h⟩

/-- C5, amended. No caching or memoization: when two successive `GetOrders` calls of the
repository return `r1` and then `r2`, and the first call leaves the struct behind the
receiver as it was, two consecutive calls of `Execute` on the same use case return the
result determined by `r1` and then the result determined by `r2`; nothing of `r1` enters
the second result. -/
theorem execute_no_caching {ι σ Order ε : Type}
    (M : OrderRepositoryMethods ι (World ι σ) Order ε) (l : Ptr) (w : World ι σ)
    (u : ListOrdersUseCase ι) (v : ι)
    (r1 r2 : Slice Order × GoError ε) (w1 w2 : World ι σ)
    (hl : w.load l = some u) (hr : u.OrderRepository = some v)
    (h1 : M.GetOrders v w = .ret r1 w1) (hkeep : w1.load l = some u)
    (h2 : M.GetOrders v w1 = .ret r2 w2) :
    ListOrdersUseCase.Execute M l w
        = .ret (if r1.2.isSome then (none, r1.2) else (r1.1, none)) w1
    ∧ ListOrdersUseCase.Execute M l (ListOrdersUseCase.Execute M l w).state
        = .ret (if r2.2.isSome then (none, r2.2) else (r2.1, none)) w2 := by
  have hfirst : ListOrdersUseCase.Execute M l w
      = .ret (if r1.2.isSome then (none, r1.2) else (r1.1, none)) w1 := by
    obtain ⟨x1, e1⟩ := r1
    cases e1 <;>
      simp [ListOrdersUseCase.Execute, OrderRepositoryInterface.GetOrders, hl, hr, h1]
  refine ⟨hfirst, ?_⟩
  rw [hfirst]
  obtain ⟨x2, e2⟩ := r2
  cases e2 <;>
    simp [Outcome.state, ListOrdersUseCase.Execute, OrderRepositoryInterface.GetOrders,
      hkeep, hr, h2]

/-- A repository that fails on its first retrieval and delivers a list on the second: the
first `Execute` returns the error, the second one the list. -/
theorem execute_no_caching_witness :
    ListOrdersUseCase.Execute (scriptedRepository SampleOrder String) (some 0)
        ⟨[⟨some ()⟩], [(none, some "timeout"), (some [⟨"1"⟩], none)]⟩
      = .ret (none, some "timeout") ⟨[⟨some ()⟩], [(some [⟨"1"⟩], none)]⟩
    ∧ ListOrdersUseCase.Execute (scriptedRepository SampleOrder String) (some 0)
        (ListOrdersUseCase.Execute (scriptedRepository SampleOrder String) (some 0)
          ⟨[⟨some ()⟩], [(none, some "timeout"), (some [⟨"1"⟩], none)]⟩).state
      = .ret (some [⟨"1"⟩], none) ⟨[⟨some ()⟩], []⟩ :=
  execute_no_caching (scriptedRepository SampleOrder String) (some 0)
    ⟨[⟨some ()⟩], [(none, some "timeout"), (some [⟨"1"⟩], none)]⟩ ⟨some ()⟩ ()
    (none, some "timeout") (some [⟨"1"⟩], none)
    ⟨[⟨some ()⟩], [(some [⟨"1"⟩], none)]⟩ ⟨[⟨some ()⟩], []⟩
    rfl rfl rfl rfl rfl

/-- C6 as stated fails: with the aliasing repository, `Execute` returns `[{id:"1"}]` and
no error, and the field `OrderRepository` of the struct behind the receiver, which held the
repository before the call, is nil after it. -/
theorem execute_frame_counterexample :
    ((⟨[⟨some ⟨some 0⟩⟩], [(some [⟨"1"⟩], none)]⟩ :
        World AliasingRepository (List (Slice SampleOrder × GoError String))).load
        (some 0)).map (fun u => u.OrderRepository)
      = some (some ⟨some 0⟩)
    ∧ ListOrdersUseCase.Execute (aliasingRepository SampleOrder String) (some 0)
        ⟨[⟨some ⟨some 0⟩⟩], [(some [⟨"1"⟩], none)]⟩
      = .ret (some [⟨"1"⟩], none) ⟨[⟨none⟩], []⟩
    ∧ ((ListOrdersUseCase.Execute (aliasingRepository SampleOrder String) (some 0)
        ⟨[⟨some ⟨some 0⟩⟩], [(some [⟨"1"⟩], none)]⟩).state.load
        (some 0)).map (fun u => u.OrderRepository)
      = some none
    ∧ ((ListOrdersUseCase.Execute (aliasingRepository SampleOrder String) (some 0)
        ⟨[⟨some ⟨some 0⟩⟩], [(some [⟨"1"⟩], none)]⟩).state.load
        (some 0)).map (fun u => u.OrderRepository)
      ≠ ((⟨[⟨some ⟨some 0⟩⟩], [(some [⟨"1"⟩], none)]⟩ :
        World AliasingRepository (List (Slice SampleOrder × GoError String))).load
        (some 0)).map (fun u => u.OrderRepository) :=
  ⟨rfl, rfl, rfl, by decide⟩

/-- C6, amended. Frame of `Execute`: `Execute` has no write of its own.  With a nil
receiver the world is left as it was; otherwise the world after the call, returned or
panicked, is exactly the world left by the repository's one `GetOrders` call, and if that
call leaves the struct behind the receiver as it was, the struct still has the same
`OrderRepository` after `Execute`. -/
theorem execute_frame {ι σ Order ε : Type}
    (M : OrderRepositoryMethods ι (World ι σ) Order ε) (l : Ptr) (w : World ι σ) :
    (w.load l = none → (ListOrdersUseCase.Execute M l w).state = w)
    ∧ (∀ u : ListOrdersUseCase ι, w.load l = some u →
        (ListOrdersUseCase.Execute M l w).state
            = (OrderRepositoryInterface.GetOrders M u.OrderRepository w).state
          ∧ ((OrderRepositoryInterface.GetOrders M u.OrderRepository w).state.load l = some u →
              ((ListOrdersUseCase.Execute M l w).state.load l).map
                (fun x => x.OrderRepository) = some u.OrderRepository)) := by
  refine ⟨fun hnone => by simp [ListOrdersUseCase.Execute, hnone, Outcome.state], ?_⟩
  intro u hu
  have hstate : (ListOrdersUseCase.Execute M l w).state
      = (OrderRepositoryInterface.GetOrders M u.OrderRepository w).state := by
    simp only [ListOrdersUseCase.Execute, hu]
    cases OrderRepositoryInterface.GetOrders M u.OrderRepository w with
    | panic p w1 => rfl
    | ret x w1 =>
      obtain ⟨orders, err⟩ := x
      cases err <;> rfl
  exact ⟨hstate, fun hkeep => by rw [hstate, hkeep]; rfl⟩

/-- The frame at a counting repository that fails: the world after `Execute` is the one
after a single `GetOrders`, and the receiver still holds the same repository. -/
theorem execute_frame_witness :
    (ListOrdersUseCase.Execute
        (countingRepository
          (failingRepository (none : Slice SampleOrder) "connection refused"))
        (some 0) (⟨[⟨some ()⟩], ((), 0)⟩ : World Unit (Unit × Nat))).state
      = (OrderRepositoryInterface.GetOrders
          (countingRepository
            (failingRepository (none : Slice SampleOrder) "connection refused"))
          (some ()) (⟨[⟨some ()⟩], ((), 0)⟩ : World Unit (Unit × Nat))).state
    ∧ ((ListOrdersUseCase.Execute
        (countingRepository
          (failingRepository (none : Slice SampleOrder) "connection refused"))
        (some 0) (⟨[⟨some ()⟩], ((), 0)⟩ : World Unit (Unit × Nat))).state.load
        (some 0)).map (fun x => x.OrderRepository)
      = some (some ()) :=
  ⟨((execute_frame
      (countingRepository
        (failingRepository (none : Slice SampleOrder) "connection refused"))
      (some 0) (⟨[⟨some ()⟩], ((), 0)⟩ : World Unit (Unit × Nat))).2 ⟨some ()⟩ rfl).1,
   ((execute_frame
      (countingRepository
        (failingRepository (none : Slice SampleOrder) "connection refused"))
      (some 0) (⟨[⟨some ()⟩], ((), 0)⟩ : World Unit (Unit × Nat))).2 ⟨some ()⟩ rfl).2 rfl⟩

/-- C7. Only two outcomes, decided by the repository's error alone: when `GetOrders`
returns `(X, e)`, `Execute` returns `(X, nil)` if `e` is nil and `(nil, e)` if `e` is not
nil, so its result is one fixed function of `(X, e)`; and no result of `Execute` carries
a non-nil error together with a non-nil slice. -/
theorem execute_two_outcomes {ι σ Order ε : Type}
    (M : OrderRepositoryMethods ι (World ι σ) Order ε) (l : Ptr) (w : World ι σ)
    (u : ListOrdersUseCase ι) (v : ι) (X : Slice Order) (e : GoError ε) (w1 : World ι σ)
    (hl : w.load l = some u) (hr : u.OrderRepository = some v)
    (hget : M.GetOrders v w = .ret (X, e) w1) :
    (e = none → ListOrdersUseCase.Execute M l w = .ret (X, none) w1)
    ∧ (e ≠ none → ListOrdersUseCase.Execute M l w = .ret (none, e) w1)
    ∧ ListOrdersUseCase.Execute M l w
        = .ret (match e with
                | none => (X, none)
                | some _ => (none, e)) w1
    ∧ ∀ x : Slice Order × GoError ε, (ListOrdersUseCase.Execute M l w).value? = some x →
        ¬ (x.2 ≠ none ∧ x.1 ≠ none) := by
  cases e with
  | none =>
    have h : ListOrdersUseCase.Execute M l w = .ret (X, none) w1 := by
      simp [ListOrdersUseCase.Execute, OrderRepositoryInterface.GetOrders, hl, hr, hget]
    refine ⟨fun _ => h, fun hne => absurd rfl hne, h, ?_⟩
    intro x hx
    rw [h] at hx
    simp only [Outcome.value?, Option.some.injEq] at hx
    subst hx
    simp
  | some E =>
    have h : ListOrdersUseCase.Execute M l w = .ret (none, some E) w1 := by
      simp [ListOrdersUseCase.Execute, OrderRepositoryInterface.GetOrders, hl, hr, hget]
    refine ⟨fun he => Option.noConfusion he, fun _ => h, h, ?_⟩
    intro x hx
    rw [h] at hx
    simp only [Outcome.value?, Option.some.injEq] at hx
    subst hx
    simp

/-- A repository that returns orders together with an error: `Execute` takes the error
branch and returns the nil slice with that error. -/
theorem execute_two_outcomes_witness :
    ListOrdersUseCase.Execute
        (failingRepository (some [(⟨"1"⟩ : SampleOrder)]) "timeout") (some 0)
        (⟨[⟨some ()⟩], ()⟩ : World Unit Unit)
      = .ret (none, some "timeout") ⟨[⟨some ()⟩], ()⟩ :=
  (execute_two_outcomes
    (failingRepository (some [(⟨"1"⟩ : SampleOrder)]) "timeout") (some 0)
    (⟨[⟨some ()⟩], ()⟩ : World Unit Unit) ⟨some ()⟩ ()
    (some [⟨"1"⟩]) (some "timeout") ⟨[⟨some ()⟩], ()⟩ rfl rfl rfl).2.1
    (fun h => Option.noConfusion h)

/-- C8. The validity of the repository is not checked: the constructor accepts every
interface value and returns a pointer `l`.  If the value is a capability whose `GetOrders`
returns normally, `Execute` on `l` returns normally; if the value is nil, `Execute` on `l`
reaches no check of its own, panics with a nil dereference at the method call and returns
no (orders, error) pair. -/
theorem execute_repository_validity_unchecked {ι σ Order ε : Type}
    (M : OrderRepositoryMethods ι (World ι σ) Order ε)
    (i : OrderRepositoryInterface ι) (w : World ι σ) :
    ∃ (l : Ptr) (w1 : World ι σ),
      GetOrdersUseCase i w = .ret l w1
      ∧ (∀ (v : ι) (res : Slice Order × GoError ε) (w2 : World ι σ),
          i = some v → M.GetOrders v w1 = .ret res w2 →
          ∃ x : Slice Order × GoError ε, ListOrdersUseCase.Execute M l w1 = .ret x w2)
      ∧ (i = none →
          ListOrdersUseCase.Execute M l w1 = .panic .nilDereference w1
          ∧ (ListOrdersUseCase.Execute M l w1).value? = none) := by
  have hload : (⟨w.heap ++ [⟨i⟩], w.repo⟩ : World ι σ).load (some w.heap.length)
      = some ⟨i⟩ := by
    simp [World.load]
  refine ⟨some w.heap.length, ⟨w.heap ++ [⟨i⟩], w.repo⟩, by rfl, ?_, ?_⟩
  · intro v res w2 hi hget
    obtain ⟨orders, err⟩ := res
    subst hi
    cases err with
    | none =>
      exact ⟨(orders, none), by
        simp [ListOrdersUseCase.Execute, OrderRepositoryInterface.GetOrders, hload, hget]⟩
    | some E =>
      exact ⟨(none, some E), by
        simp [ListOrdersUseCase.Execute, OrderRepositoryInterface.GetOrders, hload, hget]⟩
  · intro hi
    subst hi
    have h : ListOrdersUseCase.Execute M (some w.heap.length)
        (⟨w.heap ++ [⟨none⟩], w.repo⟩ : World ι σ)
        = .panic .nilDereference ⟨w.heap ++ [⟨none⟩], w.repo⟩ := by
      simp [ListOrdersUseCase.Execute, OrderRepositoryInterface.GetOrders, hload]
    exact ⟨h, by rw [h]; rfl⟩

/-- The use case built in an empty world from the in-memory repository holding
`[{id:"1"}]` returns normally from `Execute`; the use case built from the nil interface
value panics with a nil dereference. -/
theorem execute_repository_validity_unchecked_witness :
    (∃ (l : Ptr) (w1 : World Unit (Slice SampleOrder)),
      GetOrdersUseCase (some ()) (⟨[], some [⟨"1"⟩]⟩ : World Unit (Slice SampleOrder))
        = .ret l w1
      ∧ ∃ x : Slice SampleOrder × GoError String,
          ListOrdersUseCase.Execute (memoryRepository SampleOrder String) l w1
            = .ret x ⟨[⟨some ()⟩], some [⟨"1"⟩]⟩)
    ∧ (∃ (l : Ptr) (w1 : World Unit (Slice SampleOrder)),
      GetOrdersUseCase none (⟨[], some [⟨"1"⟩]⟩ : World Unit (Slice SampleOrder))
        = .ret l w1
      ∧ ListOrdersUseCase.Execute (memoryRepository SampleOrder String) l w1
        = .panic .nilDereference w1) :=
  ⟨match execute_repository_validity_unchecked (memoryRepository SampleOrder String)
        (some ()) (⟨[], some [⟨"1"⟩]⟩ : World Unit (Slice SampleOrder)) with
    | ⟨l, w1, hc, hvalid, _⟩ =>
      ⟨l, w1, hc, hvalid () (some [⟨"1"⟩], none) ⟨[⟨some ()⟩], some [⟨"1"⟩]⟩ rfl
        (by
          have hw : w1 = ⟨[⟨some ()⟩], some [⟨"1"⟩]⟩ := by
            simp only [GetOrdersUseCase, Outcome.ret.injEq] at hc
            exact hc.2.symm
          subst hw
          rfl)⟩,
   match execute_repository_validity_unchecked (memoryRepository SampleOrder String)
        none (⟨[], some [⟨"1"⟩]⟩ : World Unit (Slice SampleOrder)) with
    | ⟨l, w1, hc, _, hnil⟩ => ⟨l, w1, hc, (hnil rfl).1⟩⟩

/-- C9. `Execute` is a verbatim pass-through exactly when the repository does not return
orders together with an error: when `GetOrders` returns `(X, e)`, the value returned by
`Execute` equals `(X, e)` if and only if `e` is nil or `X` is nil. -/
theorem execute_verbatim_iff {ι σ Order ε : Type}
    (M : OrderRepositoryMethods ι (World ι σ) Order ε) (l : Ptr) (w : World ι σ)
    (u : ListOrdersUseCase ι) (v : ι) (X : Slice Order) (e : GoError ε) (w1 : World ι σ)
    (hl : w.load l = some u) (hr : u.OrderRepository = some v)
    (hget : M.GetOrders v w = .ret (X, e) w1) :
    (ListOrdersUseCase.Execute M l w).value? = some (X, e) ↔ (e = none ∨ X = none) := by
  cases e with
  | none =>
    simp [ListOrdersUseCase.Execute, OrderRepositoryInterface.GetOrders, hl, hr, hget,
      Outcome.value?]
  | some E =>
    cases X with
    | none =>
      simp [ListOrdersUseCase.Execute, OrderRepositoryInterface.GetOrders, hl, hr, hget,
        Outcome.value?]
    | some xs =>
      simp [ListOrdersUseCase.Execute, OrderRepositoryInterface.GetOrders, hl, hr, hget,
        Outcome.value?]

/-- The input at which `Execute` is not a pass-through: the repository returns the non-nil
orders `[{id:"1"}]` together with a non-nil error, and the value returned by `Execute`
differs from that pair, the orders being discarded. -/
theorem execute_verbatim_iff_witness :
    ¬ ((ListOrdersUseCase.Execute
        (failingRepository (some [(⟨"1"⟩ : SampleOrder)]) "timeout") (some 0)
        (⟨[⟨some ()⟩], ()⟩ : World Unit Unit)).value?
      = some (some [⟨"1"⟩], some "timeout")) :=
  fun h =>
    ((execute_verbatim_iff
      (failingRepository (some [(⟨"1"⟩ : SampleOrder)]) "timeout") (some 0)
      (⟨[⟨some ()⟩], ()⟩ : World Unit Unit) ⟨some ()⟩ ()
      (some [⟨"1"⟩]) (some "timeout") ⟨[⟨some ()⟩], ()⟩ rfl rfl rfl).mp h).elim
      (fun he => Option.noConfusion he) (fun hx => Option.noConfusion hx)

end Usecase
